import Mathlib

/-!
Shallow embedding of the cpu-power-model-training repository, covering:

* `merge_datasets.py` — `DatasetMerger` (temporal matching of VM feature
  points with baremetal power labels, threshold filtering, statistics);
* `bm_power_collector.py` — `BaremetalPowerCollector.collect_power_data`
  (cycle scheduling anchored to an absolute start time);
* `vm_feature_collector/src/vm_feature_collector.py` — delta sampling,
  utilization computation, derived-ratio computation and the synchronized
  collection window.

Timestamps, watt values and seconds are modelled as rationals; jiffies and
cumulative byte counters as integers; performance-counter readings as
naturals.
-/

namespace MergeDatasets

/-- A VM feature point as consumed by `DatasetMerger.merge_datasets`;
only its `timestamp` key is inspected by the merge (the remaining feature
keys are copied verbatim into the merged record and play no role in the
matching logic). -/
structure VMPoint where
  timestamp : ℚ
deriving DecidableEq

/-- A baremetal power point (one row of the power CSV) with the fields read
by the merge. -/
structure BMPoint where
  timestamp : ℚ
  total_cpu_watts_core : ℚ
  total_cpu_watts_package : ℚ
  vm_count : ℕ
  collection_interval : ℚ
deriving DecidableEq

/-- The merged training record: the VM point's fields plus the power label
and match metadata added at `merge_datasets` lines 219–229. -/
structure MergedRecord where
  timestamp : ℚ
  power_watts : ℚ
  power_zone : String
  bm_timestamp : ℚ
  time_diff : ℚ
  vm_count : ℕ
  bm_collection_interval : ℚ
deriving DecidableEq

/-- Constructor arguments of `DatasetMerger.__init__`. -/
structure MergeConfig where
  time_tolerance : ℚ
  min_power_threshold : ℚ
  power_zone : String
deriving DecidableEq

/-- `MergeStatistics` dataclass. `vm_feature_points`, `bm_power_points`,
`time_range_vm` and `time_range_bm` are set by the two loaders; the rest by
`merge_datasets`. -/
structure MergeStatistics where
  vm_feature_points : ℕ
  bm_power_points : ℕ
  matched_points : ℕ
  unmatched_vm_points : ℕ
  unmatched_bm_points : ℕ
  time_range_vm : ℚ × ℚ
  time_range_bm : ℚ × ℚ
  time_range_merged : ℚ × ℚ
  power_range : ℚ × ℚ
  average_time_diff : ℚ
  max_time_diff : ℚ
deriving DecidableEq

/-- `DatasetMerger._get_power_label`: select the wattage of the configured
zone, defaulting to core for an unknown zone string. -/
def getPowerLabel (cfg : MergeConfig) (p : BMPoint) : ℚ :=
  if cfg.power_zone = "core" then p.total_cpu_watts_core
  else if cfg.power_zone = "package" then p.total_cpu_watts_package
  else p.total_cpu_watts_core

/-- Final return of `_find_closest_power_point`: `closest_point` starts as
`None` and `closest_idx` starts as `bm_start_idx`. -/
def fcResult (best : Option (BMPoint × ℕ × ℚ)) (startIdx : ℕ) :
    Option BMPoint × ℕ :=
  match best with
  | none => (none, startIdx)
  | some (p, j, _) => (some p, j)

/-- `time_diff < closest_diff` where `closest_diff` starts at `inf`
(`best = none`). -/
def betterThanBest (d : ℚ) (best : Option (BMPoint × ℕ × ℚ)) : Bool :=
  match best with
  | none => true
  | some (_, _, bd) => decide (d < bd)

/-- The scan loop of `_find_closest_power_point` (lines 169–179): walk the
remaining power points at absolute index `i`, keeping the closest point
within tolerance seen so far, and break once a point lies beyond
`target + tolerance`. -/
def fcLoop (tol target : ℚ) :
    List BMPoint → ℕ → Option (BMPoint × ℕ × ℚ) → ℕ → Option BMPoint × ℕ
  | [], _, best, startIdx => fcResult best startIdx
  | p :: rest, i, best, startIdx =>
    let d := |p.timestamp - target|
    if d ≤ tol ∧ betterThanBest d best = true then
      fcLoop tol target rest (i + 1) (some (p, i, d)) startIdx
    else if target + tol < p.timestamp then
      fcResult best startIdx
    else
      fcLoop tol target rest (i + 1) best startIdx

/-- `DatasetMerger._find_closest_power_point`: search forward from
`startIdx` for the power point closest in time to `target`, restricted to
differences within the tolerance. -/
def findClosestPowerPoint (cfg : MergeConfig) (bm : List BMPoint)
    (target : ℚ) (startIdx : ℕ) : Option BMPoint × ℕ :=
  fcLoop cfg.time_tolerance target (bm.drop startIdx) startIdx none startIdx

/-- Mutable state threads of the `merge_datasets` loop: the forward-scan
cursor `bm_search_start`, `matched_count`, `self.merged_data`,
`time_diffs` and `power_values`. -/
structure LoopState where
  searchStart : ℕ
  matched : ℕ
  merged : List MergedRecord
  timeDiffs : List ℚ
  powerValues : List ℚ
deriving DecidableEq

/-- The merged data point assembled at lines 219–229 (`vm_point.copy()`
plus power label, zone, baremetal timestamp, time difference and power
metadata). -/
def mkMergedRecord (cfg : MergeConfig) (vm : VMPoint) (p : BMPoint)
    (pv : ℚ) : MergedRecord :=
  { timestamp := vm.timestamp
    power_watts := pv
    power_zone := cfg.power_zone
    bm_timestamp := p.timestamp
    time_diff := |vm.timestamp - p.timestamp|
    vm_count := p.vm_count
    bm_collection_interval := p.collection_interval }

/-- One iteration of the `for vm_point in self.vm_data` loop of
`merge_datasets` (lines 207–241).  `searchStart := idx - 1` is
`max(0, search_idx - 1)` (truncated subtraction on `ℕ`); the cursor is
only written in the branch where a match was found and passed the power
threshold. -/
def mergeStep (cfg : MergeConfig) (bm : List BMPoint) (st : LoopState)
    (vm : VMPoint) : LoopState :=
  match findClosestPowerPoint cfg bm vm.timestamp st.searchStart with
  | (some p, idx) =>
    let pv := getPowerLabel cfg p
    if cfg.min_power_threshold ≤ pv then
      { searchStart := idx - 1
        matched := st.matched + 1
        merged := st.merged ++ [mkMergedRecord cfg vm p pv]
        timeDiffs := st.timeDiffs ++ [|vm.timestamp - p.timestamp|]
        powerValues := st.powerValues ++ [pv] }
    else st
  | (none, _) => st

/-- The whole matching loop of `merge_datasets`. -/
def mergeLoop (cfg : MergeConfig) (bm : List BMPoint) :
    List VMPoint → LoopState → LoopState
  | [], st => st
  | v :: rest, st => mergeLoop cfg bm rest (mergeStep cfg bm st v)

/-- `min` over a nonempty list (Python's `min(xs)` / `np.min`); `0` for the
empty list, which the callers guard against. -/
def listMin : List ℚ → ℚ
  | [] => 0
  | x :: xs => xs.foldl min x

/-- `max` over a nonempty list (Python's `max(xs)` / `np.max`); `0` for the
empty list, which the callers guard against. -/
def listMax : List ℚ → ℚ
  | [] => 0
  | x :: xs => xs.foldl max x

/-- Sum of a list of rationals (`np.mean` numerator). -/
def listSum (l : List ℚ) : ℚ := l.foldl (fun a b => a + b) 0

/-- `(xs[0], xs[-1])` as computed by the loaders for the time ranges
(`(0, 0)` dataclass default for an empty input, which the loaders
reject). -/
def timeRangeOf (ts : List ℚ) : ℚ × ℚ :=
  match ts with
  | [] => (0, 0)
  | x :: xs => (x, xs.getLastD x)

/-- The statistics fields as set by the loaders (lines 111–115, 147–151)
and by the tail of `merge_datasets` (lines 247–261), as a function of the
loaded data and the final loop state. -/
def mergeStats (vm : List VMPoint) (bm : List BMPoint)
    (final : LoopState) : MergeStatistics :=
  let mergedTs := final.merged.map (fun r => r.timestamp)
  { vm_feature_points := vm.length
    bm_power_points := bm.length
    matched_points := final.matched
    unmatched_vm_points := vm.length - final.matched
    unmatched_bm_points := bm.length
    time_range_vm := timeRangeOf (vm.map (fun v => v.timestamp))
    time_range_bm := timeRangeOf (bm.map (fun b => b.timestamp))
    time_range_merged :=
      if final.merged = [] then (0, 0) else (listMin mergedTs, listMax mergedTs)
    power_range :=
      if final.powerValues = [] then (0, 0)
      else (listMin final.powerValues, listMax final.powerValues)
    average_time_diff :=
      if final.timeDiffs = [] then 0
      else listSum final.timeDiffs / (final.timeDiffs.length : ℚ)
    max_time_diff :=
      if final.timeDiffs = [] then 0 else listMax final.timeDiffs }

/-- `DatasetMerger.merge_datasets` run on loaded, timestamp-sorted data.
`prevMerged` is the content of `self.merged_data` before the call: the
method appends to it without clearing it.  Returns the final
`self.merged_data` together with the recomputed statistics. -/
def mergeDatasets (cfg : MergeConfig) (vm : List VMPoint)
    (bm : List BMPoint) (prevMerged : List MergedRecord) :
    List MergedRecord × MergeStatistics :=
  let final := mergeLoop cfg bm vm
    { searchStart := 0, matched := 0, merged := prevMerged,
      timeDiffs := [], powerValues := [] }
  (final.merged, mergeStats vm bm final)

end MergeDatasets

namespace BmPowerCollector

/-- Result of one Kepler scrape in
`collect_power_metrics_with_timestamp`: the already-filtered and summed
per-zone wattages, the VM count, and the wall-clock time the HTTP response
arrived (available to the code but never used for the sample's
timestamps). -/
structure ScrapeResult where
  arrival_time : ℚ
  core_watts : ℚ
  package_watts : ℚ
  vm_count : ℕ
deriving DecidableEq

/-- `PowerDataPoint` with the timing and power fields set by
`collect_power_metrics_with_timestamp` (lines 339–369). -/
structure PowerDataPoint where
  timestamp : ℚ
  timestamp_absolute : ℚ
  total_cpu_watts_core : ℚ
  total_cpu_watts_package : ℚ
  vm_count : ℕ
  collection_interval : ℚ
deriving DecidableEq

/-- `BaremetalPowerCollector.collect_power_metrics_with_timestamp`:
build a data point stamped with the provided `target` time
(`timestamp = target_timestamp`, line 339), relative to
`collection_start_time`; `none` models a scrape that failed after all
retries. -/
def collectPowerMetricsWithTimestamp (collStart interval : ℚ) (target : ℚ)
    (res : Option ScrapeResult) : Option PowerDataPoint :=
  res.map fun r =>
    { timestamp := target - collStart
      timestamp_absolute := target
      total_cpu_watts_core := r.core_watts
      total_cpu_watts_package := r.package_watts
      vm_count := r.vm_count
      collection_interval := interval }

/-- The collection loop of `collect_power_data` (lines 406–441) at cycle
counter `k`: each cycle computes `target_time = start_time +
collection_count * collection_interval`, scrapes, and appends the point on
success; `collection_count` is incremented on success and on failure
alike (line 438). -/
def collectLoop (startTime collStart interval : ℚ) :
    List (Option ScrapeResult) → ℕ → List PowerDataPoint
  | [], _ => []
  | r :: rest, k =>
    match collectPowerMetricsWithTimestamp collStart interval
        (startTime + (k : ℚ) * interval) r with
    | some dp => dp :: collectLoop startTime collStart interval rest (k + 1)
    | none => collectLoop startTime collStart interval rest (k + 1)

/-- `BaremetalPowerCollector.collect_power_data`, with the sequence of
scrape outcomes for the cycles actually executed given as input
(`none` = a cycle whose scrape failed). -/
def collectPowerData (startTime collStart interval : ℚ)
    (results : List (Option ScrapeResult)) : List PowerDataPoint :=
  collectLoop startTime collStart interval results 0

end BmPowerCollector

namespace VmFeatureCollector

/-- The eight cumulative `cpu` jiffy counters read from `/proc/stat`. -/
structure CpuJiffies where
  user : ℤ
  nice : ℤ
  system : ℤ
  idle : ℤ
  iowait : ℤ
  irq : ℤ
  softirq : ℤ
  steal : ℤ
deriving DecidableEq

/-- A `/proc/stat` snapshot as parsed by `_read_proc_stat`; `cpu = none`
models a snapshot whose aggregate `cpu` line is missing (the
`if prev_cpu and curr_cpu` guard). -/
structure ProcStat where
  cpu : Option CpuJiffies
  context_switches : ℤ
  processes_created : ℤ
  procs_running : ℤ
  procs_blocked : ℤ
deriving DecidableEq

/-- Per-field jiffy delta of `_compute_proc_stat_deltas` line 334:
`delta_jiffies = max(0, curr_val - prev_val)`. -/
def deltaJiffies (prev curr : ℤ) : ℤ := max 0 (curr - prev)

/-- Total jiffy delta over the window: the sum of the eight per-field
deltas accumulated into `total_delta` (line 337). -/
def cpuTotalDelta (pc cc : CpuJiffies) : ℤ :=
  deltaJiffies pc.user cc.user + deltaJiffies pc.nice cc.nice +
  deltaJiffies pc.system cc.system + deltaJiffies pc.idle cc.idle +
  deltaJiffies pc.iowait cc.iowait + deltaJiffies pc.irq cc.irq +
  deltaJiffies pc.softirq cc.softirq + deltaJiffies pc.steal cc.steal

/-- The CPU-time part of `_compute_proc_stat_deltas` (lines 328–351):
returns `(sys_cpu_user_seconds, sys_cpu_system_seconds,
sys_cpu_total_seconds, sys_cpu_utilization)`.  The utilization keeps the
source's round trip `idle_jiffies = cpu_deltas['idle'] * jiffies_per_second`
where `cpu_deltas['idle']` is the idle delta divided by
`jiffies_per_second`. -/
def cpuDeltaPart (jps : ℕ) (pc cc : CpuJiffies) : ℚ × ℚ × ℚ × ℚ :=
  let userSec : ℚ := (deltaJiffies pc.user cc.user : ℚ) / (jps : ℚ)
  let niceSec : ℚ := (deltaJiffies pc.nice cc.nice : ℚ) / (jps : ℚ)
  let sysSec : ℚ := (deltaJiffies pc.system cc.system : ℚ) / (jps : ℚ)
  let idleSec : ℚ := (deltaJiffies pc.idle cc.idle : ℚ) / (jps : ℚ)
  let total := cpuTotalDelta pc cc
  let util : ℚ :=
    if 0 < total then
      (((total : ℚ) - idleSec * (jps : ℚ)) / (total : ℚ)) * 100
    else 0
  (userSec, sysSec, userSec + sysSec + niceSec, util)

/-- The outputs of `_compute_proc_stat_deltas` consumed by
`collect_feature_point` (the per-field percentage outputs of lines 354–358
are not modelled). -/
structure SysDeltas where
  sys_cpu_user_seconds : ℚ
  sys_cpu_system_seconds : ℚ
  sys_cpu_total_seconds : ℚ
  sys_cpu_utilization : ℚ
  sys_context_switches : ℤ
  sys_processes_created : ℤ
  sys_procs_running : ℤ
  sys_procs_blocked : ℤ
deriving DecidableEq

/-- `VMFeatureCollector._compute_proc_stat_deltas` on two parsed
snapshots, with `jps = jiffies_per_second` (`SC_CLK_TCK`, fallback 100).
When either snapshot lacks the `cpu` line the cpu-derived keys are absent
from the returned dict and `collect_feature_point` defaults them to 0. -/
def computeProcStatDeltas (jps : ℕ) (prev curr : ProcStat) : SysDeltas :=
  let cpuPart : ℚ × ℚ × ℚ × ℚ :=
    match prev.cpu, curr.cpu with
    | some pc, some cc => cpuDeltaPart jps pc cc
    | _, _ => (0, 0, 0, 0)
  { sys_cpu_user_seconds := cpuPart.1
    sys_cpu_system_seconds := cpuPart.2.1
    sys_cpu_total_seconds := cpuPart.2.2.1
    sys_cpu_utilization := cpuPart.2.2.2
    sys_context_switches :=
      max 0 (curr.context_switches - prev.context_switches)
    sys_processes_created :=
      max 0 (curr.processes_created - prev.processes_created)
    sys_procs_running := curr.procs_running
    sys_procs_blocked := curr.procs_blocked }

/-- Cumulative CPU seconds from `psutil.cpu_times()` at one snapshot. -/
structure CpuSeconds where
  user : ℚ
  nice : ℚ
  system : ℚ
  idle : ℚ
  iowait : ℚ
  irq : ℚ
  softirq : ℚ
  steal : ℚ
deriving DecidableEq

/-- One OS counter snapshot taken by `_snapshot_os_counters`. -/
structure OsSnapshot where
  cpu_times : CpuSeconds
  disk_read_bytes : ℤ
  disk_write_bytes : ℤ
  net_bytes_sent : ℤ
  net_bytes_recv : ℤ
  memory_percent : ℚ
  memory_available_gb : ℚ
  process_count : ℤ
  load_avg_1 : ℚ
  load_avg_5 : ℚ
  load_avg_15 : ℚ
deriving DecidableEq

/-- Per-field CPU-seconds delta of `_compute_os_metrics_from_snapshots`
line 538: `max(0.0, t1[k] - t0[k])`. -/
def deltaSeconds (prev curr : ℚ) : ℚ := max 0 (curr - prev)

/-- `sum(deltas.values())` over the eight CPU-seconds deltas. -/
def osCpuDeltaSum (s0 s1 : OsSnapshot) : ℚ :=
  deltaSeconds s0.cpu_times.user s1.cpu_times.user +
  deltaSeconds s0.cpu_times.nice s1.cpu_times.nice +
  deltaSeconds s0.cpu_times.system s1.cpu_times.system +
  deltaSeconds s0.cpu_times.idle s1.cpu_times.idle +
  deltaSeconds s0.cpu_times.iowait s1.cpu_times.iowait +
  deltaSeconds s0.cpu_times.irq s1.cpu_times.irq +
  deltaSeconds s0.cpu_times.softirq s1.cpu_times.softirq +
  deltaSeconds s0.cpu_times.steal s1.cpu_times.steal

/-- The outputs of `_compute_os_metrics_from_snapshots`. -/
structure OsMetrics where
  cpu_user_time : ℚ
  cpu_nice_time : ℚ
  cpu_system_time : ℚ
  cpu_idle : ℚ
  cpu_iowait : ℚ
  cpu_irq : ℚ
  cpu_softirq : ℚ
  cpu_steal : ℚ
  cpu_utilization : ℚ
  disk_io_read_mb : ℚ
  disk_io_write_mb : ℚ
  network_bytes_sent : ℤ
  network_bytes_recv : ℤ
  memory_usage_percent : ℚ
  memory_available_gb : ℚ
  process_count : ℤ
  load_average_1min : ℚ
  load_average_5min : ℚ
  load_average_15min : ℚ
deriving DecidableEq

/-- `VMFeatureCollector._compute_os_metrics_from_snapshots` (lines
530–582).  `total = sum(deltas.values()) or time_delta or 1.0` is the
Python truthiness chain: the first non-zero of the three.
`cpu_utilization = 100.0 - cpu_idle`. -/
def computeOsMetricsFromSnapshots (s0 s1 : OsSnapshot)
    (time_delta : ℚ) : OsMetrics :=
  let du := deltaSeconds s0.cpu_times.user s1.cpu_times.user
  let dn := deltaSeconds s0.cpu_times.nice s1.cpu_times.nice
  let ds := deltaSeconds s0.cpu_times.system s1.cpu_times.system
  let di := deltaSeconds s0.cpu_times.idle s1.cpu_times.idle
  let dio := deltaSeconds s0.cpu_times.iowait s1.cpu_times.iowait
  let dirq := deltaSeconds s0.cpu_times.irq s1.cpu_times.irq
  let dsoft := deltaSeconds s0.cpu_times.softirq s1.cpu_times.softirq
  let dst := deltaSeconds s0.cpu_times.steal s1.cpu_times.steal
  let sumD := osCpuDeltaSum s0 s1
  let total := if sumD ≠ 0 then sumD else if time_delta ≠ 0 then time_delta else 1
  let idlePct := (di / total) * 100
  { cpu_user_time := (du / total) * 100
    cpu_nice_time := (dn / total) * 100
    cpu_system_time := (ds / total) * 100
    cpu_idle := idlePct
    cpu_iowait := (dio / total) * 100
    cpu_irq := (dirq / total) * 100
    cpu_softirq := (dsoft / total) * 100
    cpu_steal := (dst / total) * 100
    cpu_utilization := 100 - idlePct
    disk_io_read_mb :=
      (max 0 (s1.disk_read_bytes - s0.disk_read_bytes) : ℚ) / (1024 * 1024)
    disk_io_write_mb :=
      (max 0 (s1.disk_write_bytes - s0.disk_write_bytes) : ℚ) / (1024 * 1024)
    network_bytes_sent := max 0 (s1.net_bytes_sent - s0.net_bytes_sent)
    network_bytes_recv := max 0 (s1.net_bytes_recv - s0.net_bytes_recv)
    memory_usage_percent := s1.memory_percent
    memory_available_gb := s1.memory_available_gb
    process_count := s1.process_count
    load_average_1min := s1.load_avg_1
    load_average_5min := s1.load_avg_5
    load_average_15min := s1.load_avg_15 }

/-- Raw performance-counter readings parsed from `perf stat` output
(missing events default to 0, matching `pmc_data.get(key, 0)`). -/
structure PmcData where
  cpu_cycles : ℕ
  instructions : ℕ
  cache_references : ℕ
  cache_misses : ℕ
  branches : ℕ
  branch_misses : ℕ
  page_faults : ℕ
  context_switches : ℕ
deriving DecidableEq

/-- The outputs of `calculate_derived_features`. -/
structure DerivedFeatures where
  instructions_per_cycle : ℚ
  cache_miss_ratio : ℚ
  branch_miss_ratio : ℚ
  cpu_efficiency : ℚ
deriving DecidableEq

/-- `VMFeatureCollector.calculate_derived_features` (lines 584–614):
each ratio is a guarded division yielding `0.0` when its divisor is not
positive. -/
def calculateDerivedFeatures (pmc : PmcData) (os : OsMetrics) :
    DerivedFeatures :=
  { instructions_per_cycle :=
      if 0 < pmc.cpu_cycles then (pmc.instructions : ℚ) / (pmc.cpu_cycles : ℚ)
      else 0
    cache_miss_ratio :=
      if 0 < pmc.cache_references then
        (pmc.cache_misses : ℚ) / (pmc.cache_references : ℚ)
      else 0
    branch_miss_ratio :=
      if 0 < pmc.branches then (pmc.branch_misses : ℚ) / (pmc.branches : ℚ)
      else 0
    cpu_efficiency := (os.cpu_user_time + os.cpu_system_time) / 100 }

/-- Modelled timing of the synchronized window in `collect_feature_point`
(lines 620–643): `t0` is the T0 snapshot time, `pmcDuration ≥ 0` the
wall-clock duration of the blocking PMC measurement (plus snapshot
overhead), and `slack ≥ 0` the extra delay contributed by `time.sleep`
overshoot and the instructions before reading T1 (`time.sleep(d)` waits at
least `d`).  If the elapsed time after the PMC step is still short of
`collection_interval`, the code sleeps the remaining budget before taking
the T1 snapshot. -/
def collectWindowT1 (interval t0 pmcDuration slack : ℚ) : ℚ :=
  let tAfterPmc := t0 + pmcDuration
  let elapsed := tAfterPmc - t0
  if elapsed < interval then tAfterPmc + (interval - elapsed) + slack
  else tAfterPmc + slack

end VmFeatureCollector

namespace MergeDatasets

/-! Concrete merge scenarios used to evaluate the matcher. -/

/-- Tolerance 0.2 s, noise floor 0.01 W, core zone. -/
def cfgNoise : MergeConfig :=
  { time_tolerance := 1/5, min_power_threshold := 1/100, power_zone := "core" }

/-- Power labels: good wattage at the endpoints, a 0.002 W reading (below
the 0.01 W noise floor) in the middle. -/
def bmNoise : List BMPoint :=
  [ { timestamp := 0, total_cpu_watts_core := 5, total_cpu_watts_package := 5,
      vm_count := 1, collection_interval := 1/10 },
    { timestamp := 50, total_cpu_watts_core := 1/500,
      total_cpu_watts_package := 1/500, vm_count := 1,
      collection_interval := 1/10 },
    { timestamp := 100, total_cpu_watts_core := 5, total_cpu_watts_package := 5,
      vm_count := 1, collection_interval := 1/10 } ]

/-- Feature points whose middle point (t = 50) has a temporal match that
is filtered by value. -/
def vmFiltered : List VMPoint := [⟨0⟩, ⟨50⟩, ⟨100⟩]

/-- Feature points whose middle point (t = 30) has no temporal match at
all. -/
def vmUnmatched : List VMPoint := [⟨0⟩, ⟨30⟩, ⟨100⟩]

/-- Tolerance 0.5 s, no noise floor. -/
def cfgWide : MergeConfig :=
  { time_tolerance := 1/2, min_power_threshold := 0, power_zone := "core" }

/-- Four power points one second apart. -/
def bmQuad : List BMPoint :=
  [ { timestamp := 0, total_cpu_watts_core := 5, total_cpu_watts_package := 5,
      vm_count := 1, collection_interval := 1/10 },
    { timestamp := 1, total_cpu_watts_core := 5, total_cpu_watts_package := 5,
      vm_count := 1, collection_interval := 1/10 },
    { timestamp := 2, total_cpu_watts_core := 5, total_cpu_watts_package := 5,
      vm_count := 1, collection_interval := 1/10 },
    { timestamp := 3, total_cpu_watts_core := 5, total_cpu_watts_package := 5,
      vm_count := 1, collection_interval := 1/10 } ]

/-- Loop state at the start of `merge_datasets`. -/
def stInit : LoopState :=
  { searchStart := 0, matched := 0, merged := [], timeDiffs := [],
    powerValues := [] }

/-- State after processing a feature at t = 3 (matches index 3, cursor
moves to 2). -/
def stAfterFirst : LoopState := mergeStep cfgWide bmQuad stInit ⟨3⟩

/-- State after additionally processing a feature at t = 100, which has no
temporal match. -/
def stAfterSecond : LoopState := mergeStep cfgWide bmQuad stAfterFirst ⟨100⟩

/-- Tolerance 0.2 s, no noise floor. -/
def cfgPlain : MergeConfig :=
  { time_tolerance := 1/5, min_power_threshold := 0, power_zone := "core" }

/-- A single feature point at t = 0. -/
def vmSingle : List VMPoint := [⟨0⟩]

/-- A single power point at t = 0. -/
def bmSingle : List BMPoint :=
  [ { timestamp := 0, total_cpu_watts_core := 5, total_cpu_watts_package := 5,
      vm_count := 1, collection_interval := 1/10 } ]

/-- A power point 0.1 s after t = 0 (inside the 0.2 s tolerance). -/
def bmNearPt : BMPoint :=
  { timestamp := 1/10, total_cpu_watts_core := 5, total_cpu_watts_package := 5,
    vm_count := 1, collection_interval := 1/10 }

/-- Two feature points; the second (t = 100) is far from every power
point. -/
def vmPair : List VMPoint := [⟨0⟩, ⟨100⟩]

/-- The single near power point as a dataset. -/
def bmNear : List BMPoint := [bmNearPt]

/-- The merged record produced for the feature at t = 0 against
`bmNear`. -/
def recNear : MergedRecord := mkMergedRecord cfgPlain ⟨0⟩ bmNearPt 5

/-- An arbitrary merged record carrying the timestamp (t = 100) of the
unmatched feature point. -/
def recPhantom : MergedRecord :=
  { timestamp := 100, power_watts := 0, power_zone := "core",
    bm_timestamp := 0, time_diff := 0, vm_count := 0,
    bm_collection_interval := 0 }

end MergeDatasets

namespace BmPowerCollector

/-- Scrape outcomes for three cycles: success, failure, success; arrival
times deliberately far from the cycle targets. -/
def scrapeDemo : List (Option ScrapeResult) :=
  [ some { arrival_time := 42, core_watts := 5, package_watts := 6, vm_count := 2 },
    none,
    some { arrival_time := 99, core_watts := 1, package_watts := 2, vm_count := 3 } ]

/-- The data point emitted for cycle 0 of `scrapeDemo` with start time 10,
collection start 4 and interval 0.5. -/
def dpDemo : PowerDataPoint :=
  { timestamp := 6, timestamp_absolute := 10, total_cpu_watts_core := 5,
    total_cpu_watts_package := 6, vm_count := 2, collection_interval := 1/2 }

end BmPowerCollector

namespace VmFeatureCollector

/-- An OS snapshot; used on both sides of a window so that every CPU-time
delta is zero. -/
def snapIdle : OsSnapshot :=
  { cpu_times := ⟨10, 0, 5, 20, 0, 0, 0, 0⟩, disk_read_bytes := 0,
    disk_write_bytes := 0, net_bytes_sent := 0, net_bytes_recv := 0,
    memory_percent := 50, memory_available_gb := 2, process_count := 100,
    load_avg_1 := 1, load_avg_5 := 1, load_avg_15 := 1 }

/-- A later OS snapshot with strictly larger counters than `snapIdle`. -/
def snapBusy : OsSnapshot :=
  { cpu_times := ⟨14, 0, 7, 21, 0, 0, 0, 0⟩, disk_read_bytes := 2097152,
    disk_write_bytes := 1048576, net_bytes_sent := 300, net_bytes_recv := 700,
    memory_percent := 60, memory_available_gb := 1, process_count := 120,
    load_avg_1 := 2, load_avg_5 := 1, load_avg_15 := 1 }

/-- A `/proc/stat` snapshot at T0. -/
def procPrev : ProcStat :=
  { cpu := some ⟨100, 0, 50, 800, 10, 0, 5, 0⟩, context_switches := 1000,
    processes_created := 40, procs_running := 2, procs_blocked := 0 }

/-- A `/proc/stat` snapshot at T1 with all counters advanced. -/
def procCurr : ProcStat :=
  { cpu := some ⟨160, 0, 70, 860, 10, 0, 5, 0⟩, context_switches := 1005,
    processes_created := 43, procs_running := 3, procs_blocked := 1 }

/-- A `/proc/stat` snapshot whose context-switch counter went backwards
relative to `procPrev` (a counter reset). -/
def procReset : ProcStat :=
  { cpu := some ⟨100, 0, 50, 800, 10, 0, 5, 0⟩, context_switches := 7,
    processes_created := 1, procs_running := 1, procs_blocked := 0 }

/-- Counter readings with zero cycles, cache references and branches. -/
def pmcZero : PmcData :=
  { cpu_cycles := 0, instructions := 7, cache_references := 0,
    cache_misses := 1, branches := 0, branch_misses := 1, page_faults := 0,
    context_switches := 0 }

/-- Counter readings with nonzero divisors. -/
def pmcBusy : PmcData :=
  { cpu_cycles := 1000, instructions := 1500, cache_references := 400,
    cache_misses := 100, branches := 200, branch_misses := 10,
    page_faults := 3, context_switches := 8 }

/-- OS metrics with 30% user and 20% system time. -/
def osBasic : OsMetrics :=
  { cpu_user_time := 30, cpu_nice_time := 0, cpu_system_time := 20,
    cpu_idle := 50, cpu_iowait := 0, cpu_irq := 0, cpu_softirq := 0,
    cpu_steal := 0, cpu_utilization := 50, disk_io_read_mb := 0,
    disk_io_write_mb := 0, network_bytes_sent := 0, network_bytes_recv := 0,
    memory_usage_percent := 50, memory_available_gb := 2, process_count := 100,
    load_average_1min := 1, load_average_5min := 1, load_average_15min := 1 }

end VmFeatureCollector

namespace MergeDatasets

/-- If the scan of `_find_closest_power_point` returns a point, that point
either is the carried best candidate or lies in the scanned suffix, and
its time difference to the target is within the tolerance (provided the
carried candidate already satisfied the tolerance). -/
theorem fcLoop_sound (tol target : ℚ) (l : List BMPoint) :
    ∀ (i startIdx : ℕ) (best : Option (BMPoint × ℕ × ℚ)) (p : BMPoint),
      (∀ q k d, best = some (q, k, d) →
        d ≤ tol ∧ d = |q.timestamp - target|) →
      (fcLoop tol target l i best startIdx).1 = some p →
      |p.timestamp - target| ≤ tol ∧
        ((∃ k d, best = some (p, k, d)) ∨ p ∈ l) := by
  induction l with
  | nil =>
    intro i startIdx best p hinv hres
    cases best with
    | none => simp [fcLoop, fcResult] at hres
    | some t =>
      obtain ⟨q, k, d⟩ := t
      simp only [fcLoop, fcResult] at hres
      have hqp : q = p := by simpa using hres
      subst hqp
      rcases hinv q k d rfl with ⟨h1, h2⟩
      exact ⟨h2 ▸ h1, Or.inl ⟨k, d, rfl⟩⟩
  | cons hd tl ih =>
    intro i startIdx best p hinv hres
    simp only [fcLoop] at hres
    split_ifs at hres with h1 h2
    · have hnew : ∀ q k d,
          (some (hd, i, |hd.timestamp - target|) :
            Option (BMPoint × ℕ × ℚ)) = some (q, k, d) →
          d ≤ tol ∧ d = |q.timestamp - target| := by
        intro q k d heq
        obtain ⟨rfl, rfl, rfl⟩ :
            hd = q ∧ i = k ∧ |hd.timestamp - target| = d := by
          simpa using heq
        exact ⟨h1.1, rfl⟩
      rcases ih (i + 1) startIdx _ p hnew hres with ⟨htol, hor⟩
      refine ⟨htol, Or.inr ?_⟩
      rcases hor with ⟨k, d, heq⟩ | hmem
      · obtain ⟨rfl, -, -⟩ : hd = p ∧ i = k ∧ |hd.timestamp - target| = d := by
          simpa using heq
        exact List.mem_cons_self _ _
      · exact List.mem_cons_of_mem _ hmem
    · cases best with
      | none => simp [fcResult] at hres
      | some t =>
        obtain ⟨q, k, d⟩ := t
        have hqp : q = p := by simpa [fcResult] using hres
        subst hqp
        rcases hinv q k d rfl with ⟨ha, hb⟩
        exact ⟨hb ▸ ha, Or.inl ⟨k, d, rfl⟩⟩
    · rcases ih (i + 1) startIdx best p hinv hres with ⟨htol, hor⟩
      exact ⟨htol, hor.imp id (List.mem_cons_of_mem _)⟩

/-- `_find_closest_power_point` only ever returns a loaded power point
within the tolerance of the target timestamp. -/
theorem findClosest_sound (cfg : MergeConfig) (bm : List BMPoint) (t : ℚ)
    (s : ℕ) (p : BMPoint)
    (h : (findClosestPowerPoint cfg bm t s).1 = some p) :
    p ∈ bm ∧ |p.timestamp - t| ≤ cfg.time_tolerance := by
  have hmain := fcLoop_sound cfg.time_tolerance t (bm.drop s) s s none p
    (by intro q k d h0; simp at h0) h
  rcases hmain with ⟨htol, hor⟩
  rcases hor with ⟨k, d, h0⟩ | hmem
  · simp at h0
  · exact ⟨List.drop_subset s bm hmem, htol⟩

/-- Every record present after one loop iteration of `merge_datasets`
satisfies the tolerance annotation invariant, provided the records present
before the iteration did. -/
theorem mergeStep_merged_sound (cfg : MergeConfig) (bm : List BMPoint)
    (st : LoopState) (v : VMPoint)
    (hst : ∀ r ∈ st.merged, r.time_diff ≤ cfg.time_tolerance ∧
      r.time_diff = |r.timestamp - r.bm_timestamp| ∧
      ∃ b ∈ bm, b.timestamp = r.bm_timestamp) :
    ∀ r ∈ (mergeStep cfg bm st v).merged,
      r.time_diff ≤ cfg.time_tolerance ∧
      r.time_diff = |r.timestamp - r.bm_timestamp| ∧
      ∃ b ∈ bm, b.timestamp = r.bm_timestamp := by
  intro r hr
  unfold mergeStep at hr
  rcases hfc : findClosestPowerPoint cfg bm v.timestamp st.searchStart
    with ⟨op, idx⟩
  rw [hfc] at hr
  cases op with
  | none =>
    dsimp only at hr
    exact hst r hr
  | some p =>
    dsimp only at hr
    have hp : p ∈ bm ∧ |p.timestamp - v.timestamp| ≤ cfg.time_tolerance :=
      findClosest_sound cfg bm v.timestamp st.searchStart p (by rw [hfc])
    by_cases hpv : cfg.min_power_threshold ≤ getPowerLabel cfg p
    · rw [if_pos hpv] at hr
      simp only [List.mem_append, List.mem_singleton] at hr
      rcases hr with hold | rfl
      · exact hst r hold
      · refine ⟨?_, rfl, p, hp.1, rfl⟩
        simpa [mkMergedRecord, abs_sub_comm] using hp.2
    · rw [if_neg hpv] at hr
      exact hst r hr

/-- The records invariant extends over the whole matching loop. -/
theorem mergeLoop_merged_sound (cfg : MergeConfig) (bm : List BMPoint)
    (vms : List VMPoint) :
    ∀ (st : LoopState),
      (∀ r ∈ st.merged, r.time_diff ≤ cfg.time_tolerance ∧
        r.time_diff = |r.timestamp - r.bm_timestamp| ∧
        ∃ b ∈ bm, b.timestamp = r.bm_timestamp) →
      ∀ r ∈ (mergeLoop cfg bm vms st).merged,
        r.time_diff ≤ cfg.time_tolerance ∧
        r.time_diff = |r.timestamp - r.bm_timestamp| ∧
        ∃ b ∈ bm, b.timestamp = r.bm_timestamp := by
  induction vms with
  | nil => intro st hst; exact hst
  | cons v rest ih =>
    intro st hst
    exact ih (mergeStep cfg bm st v) (mergeStep_merged_sound cfg bm st v hst)

/-- C1: every merged record produced by `DatasetMerger.merge_datasets`
records a time difference that is at most the configured tolerance (and
that difference is exactly the gap between the feature timestamp and the
matched label timestamp); a feature point with no power point within the
tolerance yields no merged record. -/
theorem merge_respects_time_tolerance (cfg : MergeConfig)
    (vm : List VMPoint) (bm : List BMPoint) :
    (∀ r ∈ (mergeDatasets cfg vm bm []).1,
      r.time_diff ≤ cfg.time_tolerance ∧
      r.time_diff = |r.timestamp - r.bm_timestamp|) ∧
    (∀ v ∈ vm,
      (∀ b ∈ bm, cfg.time_tolerance < |v.timestamp - b.timestamp|) →
      ∀ r ∈ (mergeDatasets cfg vm bm []).1, r.timestamp ≠ v.timestamp) := by
  have hall : ∀ r ∈ (mergeDatasets cfg vm bm []).1,
      r.time_diff ≤ cfg.time_tolerance ∧
      r.time_diff = |r.timestamp - r.bm_timestamp| ∧
      ∃ b ∈ bm, b.timestamp = r.bm_timestamp := by
    intro r hr
    refine mergeLoop_merged_sound cfg bm vm
      { searchStart := 0, matched := 0, merged := [], timeDiffs := [],
        powerValues := [] } (by intro r0 hr0; simp at hr0) r ?_
    simpa [mergeDatasets] using hr
  refine ⟨fun r hr => ⟨(hall r hr).1, (hall r hr).2.1⟩, ?_⟩
  intro v hv hfar r hr rts
  rcases hall r hr with ⟨htol, hdiff, b, hb, hbts⟩
  have h1 : cfg.time_tolerance < |v.timestamp - b.timestamp| := hfar b hb
  rw [← rts, hbts, ← hdiff] at h1
  exact absurd htol (not_le.mpr h1)

/-- C1 witness: on a concrete dataset the produced record's annotated time
difference is within tolerance, and no record carries the timestamp of the
feature at t = 100, which has no power point within tolerance. -/
theorem merge_respects_time_tolerance_witness :
    recNear.time_diff ≤ cfgPlain.time_tolerance ∧
      recPhantom ∉ (mergeDatasets cfgPlain vmPair bmNear []).1 := by
  constructor
  · exact ((merge_respects_time_tolerance cfgPlain vmPair bmNear).1 recNear
      (of_decide_eq_true (by with_unfolding_all rfl))).1
  · intro hmem
    exact (merge_respects_time_tolerance cfgPlain vmPair bmNear).2 ⟨100⟩
      (of_decide_eq_true (by with_unfolding_all rfl))
      (of_decide_eq_true (by with_unfolding_all rfl)) recPhantom hmem rfl

/-- C2 counterexample: a run in which the middle feature (t = 50) is
matched within tolerance but filtered by the 0.01 W noise floor (matched
wattage 0.002 W) produces records and statistics bit-identical to a run in
which the middle feature (t = 30) has no temporal match at all, so the
statistics cannot record the filtered feature as "matched but filtered by
value" distinguished from "no temporal match". -/
theorem filtered_indistinguishable_from_unmatched :
    mergeDatasets cfgNoise vmFiltered bmNoise [] =
      mergeDatasets cfgNoise vmUnmatched bmNoise [] ∧
    (∃ b ∈ bmNoise, |(50 : ℚ) - b.timestamp| ≤ cfgNoise.time_tolerance ∧
      getPowerLabel cfgNoise b < cfgNoise.min_power_threshold) ∧
    (∀ b ∈ bmNoise, cfgNoise.time_tolerance < |(30 : ℚ) - b.timestamp|) :=
  of_decide_eq_true (by with_unfolding_all rfl)

/-- C2 amended: with noise floor 0.01 W and matched label wattage 0.002 W
the feature at t = 50 is dropped even though a temporal match existed, but
`MergeStatistics` has no filtered-by-value counter: the dropped feature is
counted in `unmatched_vm_points`, exactly as a feature with no temporal
match would be. -/
theorem filtered_feature_dropped :
    ((mergeDatasets cfgNoise vmFiltered bmNoise []).1.map
      (fun r => r.timestamp) = [0, 100]) ∧
    (mergeDatasets cfgNoise vmFiltered bmNoise []).2.matched_points = 2 ∧
    (mergeDatasets cfgNoise vmFiltered bmNoise []).2.unmatched_vm_points = 1 :=
  of_decide_eq_true (by with_unfolding_all rfl)

/-- C3 amended: the forward-scan cursor is set to
`max(0, matched_index − 1)` only when the feature obtained a temporal
match that also passed the power threshold; when there is no temporal
match, or the match is filtered by value, the cursor is left unchanged. -/
theorem cursor_update_only_on_accepted_match (cfg : MergeConfig)
    (bm : List BMPoint) (st : LoopState) (v : VMPoint) :
    ((findClosestPowerPoint cfg bm v.timestamp st.searchStart).1 = none →
      (mergeStep cfg bm st v).searchStart = st.searchStart) ∧
    (∀ p idx,
      findClosestPowerPoint cfg bm v.timestamp st.searchStart =
        (some p, idx) →
      (getPowerLabel cfg p < cfg.min_power_threshold →
        (mergeStep cfg bm st v).searchStart = st.searchStart) ∧
      (cfg.min_power_threshold ≤ getPowerLabel cfg p →
        ((mergeStep cfg bm st v).searchStart : ℤ) =
          max 0 ((idx : ℤ) - 1))) := by
  constructor
  · intro hnone
    unfold mergeStep
    rcases hfc : findClosestPowerPoint cfg bm v.timestamp st.searchStart
      with ⟨op, idx⟩
    rw [hfc] at hnone
    cases op with
    | none => rfl
    | some p => simp at hnone
  · intro p idx hfc
    unfold mergeStep
    rw [hfc]
    dsimp only
    constructor
    · intro hlt
      rw [if_neg (not_le.mpr hlt)]
    · intro hle
      rw [if_pos hle]
      show ((idx - 1 : ℕ) : ℤ) = max 0 ((idx : ℤ) - 1)
      omega

/-- C3 witness: for a feature matched at index 3 that passes the power
threshold, the cursor becomes `max(0, 3 − 1) = 2`. -/
theorem cursor_update_only_on_accepted_match_witness :
    ((mergeStep cfgWide bmQuad stInit ⟨3⟩).searchStart : ℤ) =
      max 0 ((3 : ℤ) - 1) :=
  ((cursor_update_only_on_accepted_match cfgWide bmQuad stInit ⟨3⟩).2
    { timestamp := 3, total_cpu_watts_core := 5, total_cpu_watts_package := 5,
      vm_count := 1, collection_interval := 1/10 } 3
    (of_decide_eq_true (by with_unfolding_all rfl))).2
    (of_decide_eq_true (by with_unfolding_all rfl))

/-- C3 counterexample: after the feature at t = 100 finds no temporal
match (the search returns index 2), the cursor for the next feature stays
at 2 instead of being set to `max(0, 2 − 1) = 1`. -/
theorem cursor_not_always_updated :
    (findClosestPowerPoint cfgWide bmQuad 100 stAfterFirst.searchStart).2 = 2 ∧
    stAfterSecond.searchStart = 2 ∧
    ((stAfterSecond.searchStart : ℤ) ≠
      max 0 (((findClosestPowerPoint cfgWide bmQuad 100
        stAfterFirst.searchStart).2 : ℤ) - 1)) :=
  of_decide_eq_true (by with_unfolding_all rfl)

/-- C10: after `merge_datasets`, the `unmatched_bm_points` statistic always
equals the total number of loaded baremetal power points (the source sets
it to `len(self.bm_data)`, marked "Approximation"), regardless of how many
power points were matched. -/
theorem unmatched_bm_points_is_total (cfg : MergeConfig) (vm : List VMPoint)
    (bm : List BMPoint) (prev : List MergedRecord) :
    (mergeDatasets cfg vm bm prev).2.unmatched_bm_points = bm.length := rfl

/-- A `min`-fold over a seed `min a b` pulls `a` out of the fold. -/
theorem foldl_min_shift (l : List ℚ) :
    ∀ a b : ℚ, l.foldl min (min a b) = min a (l.foldl min b) := by
  induction l with
  | nil => intro a b; rfl
  | cons c t ih =>
    intro a b
    show t.foldl min (min (min a b) c) = min a (t.foldl min (min b c))
    rw [min_assoc, ih]

/-- A `max`-fold over a seed `max a b` pulls `a` out of the fold. -/
theorem foldl_max_shift (l : List ℚ) :
    ∀ a b : ℚ, l.foldl max (max a b) = max a (l.foldl max b) := by
  induction l with
  | nil => intro a b; rfl
  | cons c t ih =>
    intro a b
    show t.foldl max (max (max a b) c) = max a (t.foldl max (max b c))
    rw [max_assoc, ih]

/-- The minimum of a nonempty list concatenated with itself is its
minimum. -/
theorem listMin_self_append (x : ℚ) (xs : List ℚ) :
    listMin ((x :: xs) ++ (x :: xs)) = listMin (x :: xs) := by
  show (xs ++ x :: xs).foldl min x = xs.foldl min x
  rw [List.foldl_append]
  show xs.foldl min (min (xs.foldl min x) x) = xs.foldl min x
  rw [foldl_min_shift]
  exact min_self _

/-- The maximum of a nonempty list concatenated with itself is its
maximum. -/
theorem listMax_self_append (x : ℚ) (xs : List ℚ) :
    listMax ((x :: xs) ++ (x :: xs)) = listMax (x :: xs) := by
  show (xs ++ x :: xs).foldl max x = xs.foldl max x
  rw [List.foldl_append]
  show xs.foldl max (max (xs.foldl max x) x) = xs.foldl max x
  rw [foldl_max_shift]
  exact max_self _

/-- One loop iteration of `merge_datasets` commutes with prepending
previously accumulated records to `merged_data`: the iteration never reads
`merged_data`, it only appends to it. -/
theorem mergeStep_prepend (cfg : MergeConfig) (bm : List BMPoint)
    (M0 M : List MergedRecord) (s m : ℕ) (D P : List ℚ) (v : VMPoint) :
    mergeStep cfg bm ⟨s, m, M0 ++ M, D, P⟩ v =
      { searchStart := (mergeStep cfg bm ⟨s, m, M, D, P⟩ v).searchStart
        matched := (mergeStep cfg bm ⟨s, m, M, D, P⟩ v).matched
        merged := M0 ++ (mergeStep cfg bm ⟨s, m, M, D, P⟩ v).merged
        timeDiffs := (mergeStep cfg bm ⟨s, m, M, D, P⟩ v).timeDiffs
        powerValues := (mergeStep cfg bm ⟨s, m, M, D, P⟩ v).powerValues } := by
  unfold mergeStep
  dsimp only
  rcases hfc : findClosestPowerPoint cfg bm v.timestamp s with ⟨op, idx⟩
  cases op with
  | none => rfl
  | some p =>
    dsimp only
    split_ifs with hpv
    · simp [List.append_assoc]
    · rfl

/-- The whole matching loop commutes with prepending previously
accumulated records to `merged_data`. -/
theorem mergeLoop_prepend (cfg : MergeConfig) (bm : List BMPoint)
    (vms : List VMPoint) :
    ∀ (M0 M : List MergedRecord) (s m : ℕ) (D P : List ℚ),
      mergeLoop cfg bm vms ⟨s, m, M0 ++ M, D, P⟩ =
        { searchStart := (mergeLoop cfg bm vms ⟨s, m, M, D, P⟩).searchStart
          matched := (mergeLoop cfg bm vms ⟨s, m, M, D, P⟩).matched
          merged := M0 ++ (mergeLoop cfg bm vms ⟨s, m, M, D, P⟩).merged
          timeDiffs := (mergeLoop cfg bm vms ⟨s, m, M, D, P⟩).timeDiffs
          powerValues :=
            (mergeLoop cfg bm vms ⟨s, m, M, D, P⟩).powerValues } := by
  induction vms with
  | nil => intro M0 M s m D P; rfl
  | cons v rest ih =>
    intro M0 M s m D P
    show mergeLoop cfg bm rest (mergeStep cfg bm ⟨s, m, M0 ++ M, D, P⟩ v) = _
    rw [mergeStep_prepend, ih]
    rfl

/-- `merge_datasets` appends the fresh matches after whatever
`self.merged_data` already held. -/
theorem mergeDatasets_merged_append (cfg : MergeConfig) (vm : List VMPoint)
    (bm : List BMPoint) (prev : List MergedRecord) :
    (mergeDatasets cfg vm bm prev).1 =
      prev ++ (mergeDatasets cfg vm bm []).1 := by
  have h := mergeLoop_prepend cfg bm vm prev [] 0 0 [] []
  rw [List.append_nil] at h
  show (mergeLoop cfg bm vm ⟨0, 0, prev, [], []⟩).merged = _
  rw [h]
  rfl

/-- C9 amended: rerunning `merge_datasets` on the same loaded inputs
recomputes bit-identical statistics, but because the method appends to
`self.merged_data` without clearing it, the merged-record list after the
second run on the same merger instance is the first run's output
concatenated with itself (a rerun on a fresh merger, with empty
`merged_data`, is bit-identical). -/
theorem merge_rerun (cfg : MergeConfig) (vm : List VMPoint)
    (bm : List BMPoint) :
    (mergeDatasets cfg vm bm ((mergeDatasets cfg vm bm []).1)).1 =
      (mergeDatasets cfg vm bm []).1 ++ (mergeDatasets cfg vm bm []).1 ∧
    (mergeDatasets cfg vm bm ((mergeDatasets cfg vm bm []).1)).2 =
      (mergeDatasets cfg vm bm []).2 := by
  refine ⟨mergeDatasets_merged_append cfg vm bm _, ?_⟩
  have h := mergeLoop_prepend cfg bm vm
    ((mergeLoop cfg bm vm ⟨0, 0, [], [], []⟩).merged) [] 0 0 [] []
  rw [List.append_nil] at h
  show mergeStats vm bm (mergeLoop cfg bm vm
      ⟨0, 0, (mergeLoop cfg bm vm ⟨0, 0, [], [], []⟩).merged, [], []⟩) =
    mergeStats vm bm (mergeLoop cfg bm vm ⟨0, 0, [], [], []⟩)
  rw [h]
  unfold mergeStats
  dsimp only
  rcases hM : (mergeLoop cfg bm vm ⟨0, 0, [], [], []⟩).merged with _ | ⟨r, rs⟩
  · simp
  · have hne2 : r :: rs ++ r :: rs ≠ ([] : List MergedRecord) := by simp
    have hne1 : r :: rs ≠ ([] : List MergedRecord) := by simp
    congr 1
    rw [if_neg hne2, if_neg hne1]
    rw [List.map_append, List.map_cons]
    rw [listMin_self_append, listMax_self_append]

/-- C9 counterexample: calling `merge_datasets` a second time on the same
merger instance does not reproduce the first run's merged-record list (it
doubles it). -/
theorem merge_rerun_not_identical :
    (mergeDatasets cfgPlain vmSingle bmSingle
      ((mergeDatasets cfgPlain vmSingle bmSingle []).1)).1 ≠
      (mergeDatasets cfgPlain vmSingle bmSingle []).1 :=
  of_decide_eq_true (by with_unfolding_all rfl)

end MergeDatasets

namespace BmPowerCollector

/-- Every point emitted by the collection loop started at cycle counter
`k` stems from a successful cycle `j` of the remaining schedule and
carries that cycle's target time, not the scrape's arrival time. -/
theorem collectLoop_mem (s c i : ℚ) (l : List (Option ScrapeResult)) :
    ∀ (k : ℕ) (dp : PowerDataPoint), dp ∈ collectLoop s c i l k →
      ∃ (j : ℕ) (r : ScrapeResult), l.get? j = some (some r) ∧
        dp.timestamp_absolute = s + ((k + j : ℕ) : ℚ) * i ∧
        dp.timestamp = dp.timestamp_absolute - c ∧
        dp.total_cpu_watts_core = r.core_watts ∧
        dp.total_cpu_watts_package = r.package_watts := by
  induction l with
  | nil => intro k dp h; simp [collectLoop] at h
  | cons hd tl ih =>
    intro k dp h
    cases hd with
    | none =>
      simp only [collectLoop, collectPowerMetricsWithTimestamp,
        Option.map_none] at h
      rcases ih (k + 1) dp h with ⟨j, r, hj, habs, hts, hc, hp⟩
      refine ⟨j + 1, r, by simpa using hj, ?_, hts, hc, hp⟩
      have hkj : k + (j + 1) = (k + 1) + j := by omega
      rw [hkj]
      exact habs
    | some x =>
      simp only [collectLoop, collectPowerMetricsWithTimestamp,
        Option.map_some] at h
      rcases List.mem_cons.mp h with rfl | hmem
      · refine ⟨0, x, rfl, by simp, rfl, rfl, rfl⟩
      · rcases ih (k + 1) dp hmem with ⟨j, r, hj, habs, hts, hc, hp⟩
        refine ⟨j + 1, r, by simpa using hj, ?_, hts, hc, hp⟩
        have hkj : k + (j + 1) = (k + 1) + j := by omega
        rw [hkj]
        exact habs

/-- The collection loop is unaffected by the wall-clock arrival times of
the scrape responses. -/
theorem collectLoop_arrival_irrelevant (s c i : ℚ) (g : ℚ → ℚ)
    (l : List (Option ScrapeResult)) :
    ∀ k : ℕ, collectLoop s c i
        (l.map (Option.map fun r =>
          { r with arrival_time := g r.arrival_time })) k =
      collectLoop s c i l k := by
  induction l with
  | nil => intro k; rfl
  | cons hd tl ih =>
    intro k
    cases hd with
    | none =>
      simp only [List.map_cons, Option.map_none, collectLoop,
        collectPowerMetricsWithTimestamp]
      exact ih (k + 1)
    | some x =>
      simp only [List.map_cons, collectLoop, collectPowerMetricsWithTimestamp,
        Option.map_some, Option.map_some]
      dsimp only [Option.map]
      rw [ih (k + 1)]

/-- C4: every sample emitted by `collect_power_data` is stamped with its
cycle's target time `start_time + k * collection_interval` (anchored to
the absolute start), its relative timestamp is that target minus the
collection start, and the output is entirely independent of when the
scrape responses actually arrived. -/
theorem collect_power_cycle_anchoring (startTime collStart interval : ℚ)
    (results : List (Option ScrapeResult)) :
    (∀ dp ∈ collectPowerData startTime collStart interval results,
      dp.timestamp = dp.timestamp_absolute - collStart ∧
      ∃ (k : ℕ) (r : ScrapeResult), results.get? k = some (some r) ∧
        dp.timestamp_absolute = startTime + (k : ℚ) * interval ∧
        dp.total_cpu_watts_core = r.core_watts ∧
        dp.total_cpu_watts_package = r.package_watts) ∧
    (∀ g : ℚ → ℚ,
      collectPowerData startTime collStart interval
        (results.map (Option.map fun r =>
          { r with arrival_time := g r.arrival_time })) =
      collectPowerData startTime collStart interval results) := by
  constructor
  · intro dp hdp
    rcases collectLoop_mem startTime collStart interval results 0 dp hdp
      with ⟨j, r, hj, habs, hts, hc, hp⟩
    exact ⟨hts, j, r, hj, by simpa using habs, hc, hp⟩
  · intro g
    exact collectLoop_arrival_irrelevant startTime collStart interval g
      results 0

/-- C4 witness: the cycle-0 sample of a concrete schedule satisfies the
relative-timestamp relation, and rewriting every arrival time to 0 leaves
the output unchanged. -/
theorem collect_power_cycle_anchoring_witness :
    dpDemo.timestamp = dpDemo.timestamp_absolute - 4 ∧
    collectPowerData 10 4 (1/2)
        (scrapeDemo.map (Option.map fun r => { r with arrival_time := 0 })) =
      collectPowerData 10 4 (1/2) scrapeDemo :=
  ⟨((collect_power_cycle_anchoring 10 4 (1/2) scrapeDemo).1 dpDemo
      (of_decide_eq_true (by with_unfolding_all rfl))).1,
    (collect_power_cycle_anchoring 10 4 (1/2) scrapeDemo).2 (fun _ => 0)⟩

end BmPowerCollector

namespace VmFeatureCollector

/-- C5: the synchronized collection window always spans at least the
configured interval: after the blocking PMC measurement the collector
sleeps any remaining interval budget before taking the T1 snapshot, so
`T1 − T0 ≥ collection_interval` whenever the measurement duration and the
scheduling slack are nonnegative. -/
theorem window_at_least_interval (interval t0 pmcDuration slack : ℚ)
    (hp : 0 ≤ pmcDuration) (hs : 0 ≤ slack) :
    interval ≤ collectWindowT1 interval t0 pmcDuration slack - t0 := by
  unfold collectWindowT1
  dsimp only
  split_ifs with h
  · linarith
  · have h2 := not_lt.mp h
    linarith

/-- C5 witness: a window with a 0.5 s PMC measurement, 0.25 s slack and a
1 s interval spans at least 1 s. -/
theorem window_at_least_interval_witness :
    (0 : ℚ) ≤ 1/2 ∧ (0 : ℚ) ≤ 1/4 ∧
      (1 : ℚ) ≤ collectWindowT1 1 0 (1/2) (1/4) - 0 :=
  ⟨by norm_num, by norm_num,
    window_at_least_interval 1 0 (1/2) (1/4) (by norm_num) (by norm_num)⟩

/-- C6: every counter delta of the delta-sampling step equals
`curr − prev` when the counter advanced, equals 0 when the counter went
backwards (a reset), and is never negative — shown for the `/proc/stat`
context-switch, process-creation and per-field CPU jiffy deltas and for
the OS-snapshot network byte deltas. -/
theorem delta_sampling_clamped (jps : ℕ) (prev curr : ProcStat)
    (s0 s1 : OsSnapshot) (td : ℚ) :
    ((prev.context_switches ≤ curr.context_switches →
        (computeProcStatDeltas jps prev curr).sys_context_switches =
          curr.context_switches - prev.context_switches) ∧
      (curr.context_switches < prev.context_switches →
        (computeProcStatDeltas jps prev curr).sys_context_switches = 0) ∧
      0 ≤ (computeProcStatDeltas jps prev curr).sys_context_switches) ∧
    ((prev.processes_created ≤ curr.processes_created →
        (computeProcStatDeltas jps prev curr).sys_processes_created =
          curr.processes_created - prev.processes_created) ∧
      (curr.processes_created < prev.processes_created →
        (computeProcStatDeltas jps prev curr).sys_processes_created = 0) ∧
      0 ≤ (computeProcStatDeltas jps prev curr).sys_processes_created) ∧
    (∀ p c : ℤ, (p ≤ c → deltaJiffies p c = c - p) ∧
      (c < p → deltaJiffies p c = 0) ∧ 0 ≤ deltaJiffies p c) ∧
    ((s0.net_bytes_sent ≤ s1.net_bytes_sent →
        (computeOsMetricsFromSnapshots s0 s1 td).network_bytes_sent =
          s1.net_bytes_sent - s0.net_bytes_sent) ∧
      (s1.net_bytes_sent < s0.net_bytes_sent →
        (computeOsMetricsFromSnapshots s0 s1 td).network_bytes_sent = 0) ∧
      0 ≤ (computeOsMetricsFromSnapshots s0 s1 td).network_bytes_sent) ∧
    ((s0.net_bytes_recv ≤ s1.net_bytes_recv →
        (computeOsMetricsFromSnapshots s0 s1 td).network_bytes_recv =
          s1.net_bytes_recv - s0.net_bytes_recv) ∧
      (s1.net_bytes_recv < s0.net_bytes_recv →
        (computeOsMetricsFromSnapshots s0 s1 td).network_bytes_recv = 0) ∧
      0 ≤ (computeOsMetricsFromSnapshots s0 s1 td).network_bytes_recv) ∧
    (∀ p c : ℚ, (p ≤ c → deltaSeconds p c = c - p) ∧
      (c < p → deltaSeconds p c = 0) ∧ 0 ≤ deltaSeconds p c) := by
  refine ⟨⟨?_, ?_, ?_⟩, ⟨?_, ?_, ?_⟩, ?_, ⟨?_, ?_, ?_⟩, ⟨?_, ?_, ?_⟩, ?_⟩
  · intro h; simp only [computeProcStatDeltas]; omega
  · intro h; simp only [computeProcStatDeltas]; omega
  · simp only [computeProcStatDeltas]; omega
  · intro h; simp only [computeProcStatDeltas]; omega
  · intro h; simp only [computeProcStatDeltas]; omega
  · simp only [computeProcStatDeltas]; omega
  · intro p c
    refine ⟨fun h => ?_, fun h => ?_, ?_⟩ <;> (unfold deltaJiffies; omega)
  · intro h; simp only [computeOsMetricsFromSnapshots]; omega
  · intro h; simp only [computeOsMetricsFromSnapshots]; omega
  · simp only [computeOsMetricsFromSnapshots]; omega
  · intro h; simp only [computeOsMetricsFromSnapshots]; omega
  · intro h; simp only [computeOsMetricsFromSnapshots]; omega
  · simp only [computeOsMetricsFromSnapshots]; omega
  · intro p c
    refine ⟨fun h => ?_, fun h => ?_, ?_⟩
    · unfold deltaSeconds
      exact max_eq_right (by linarith)
    · unfold deltaSeconds
      exact max_eq_left (by linarith)
    · exact le_max_left 0 _

/-- C6 witness: on concrete snapshots, an advancing context-switch counter
yields its difference (5) and a counter reset yields 0. -/
theorem delta_sampling_clamped_witness :
    (computeProcStatDeltas 100 procPrev procCurr).sys_context_switches = 5 ∧
    (computeProcStatDeltas 100 procPrev procReset).sys_context_switches = 0 ∧
    (computeOsMetricsFromSnapshots snapIdle snapBusy 1).network_bytes_sent =
      300 := by
  refine ⟨?_, ?_, ?_⟩
  · have h := ((delta_sampling_clamped 100 procPrev procCurr snapIdle snapBusy
      1).1).1 (of_decide_eq_true (by with_unfolding_all rfl))
    rw [h]
    exact of_decide_eq_true (by with_unfolding_all rfl)
  · exact ((delta_sampling_clamped 100 procPrev procReset snapIdle snapBusy
      1).1).2.1 (of_decide_eq_true (by with_unfolding_all rfl))
  · have h := (delta_sampling_clamped 100 procPrev procCurr snapIdle snapBusy
      1).2.2.2.1.1 (of_decide_eq_true (by with_unfolding_all rfl))
    rw [h]
    exact of_decide_eq_true (by with_unfolding_all rfl)

/-- Jiffy deltas are clamped at zero. -/
theorem deltaJiffies_nonneg (p c : ℤ) : 0 ≤ deltaJiffies p c :=
  le_max_left 0 _

/-- CPU-seconds deltas are clamped at zero. -/
theorem deltaSeconds_nonneg (p c : ℚ) : 0 ≤ deltaSeconds p c :=
  le_max_left 0 _

/-- The idle delta never exceeds the total jiffy delta. -/
theorem idle_le_cpuTotalDelta (pc cc : CpuJiffies) :
    deltaJiffies pc.idle cc.idle ≤ cpuTotalDelta pc cc := by
  unfold cpuTotalDelta
  linarith [deltaJiffies_nonneg pc.user cc.user,
    deltaJiffies_nonneg pc.nice cc.nice,
    deltaJiffies_nonneg pc.system cc.system,
    deltaJiffies_nonneg pc.iowait cc.iowait,
    deltaJiffies_nonneg pc.irq cc.irq,
    deltaJiffies_nonneg pc.softirq cc.softirq,
    deltaJiffies_nonneg pc.steal cc.steal]

/-- The total jiffy delta is nonnegative. -/
theorem cpuTotalDelta_nonneg (pc cc : CpuJiffies) :
    0 ≤ cpuTotalDelta pc cc := by
  unfold cpuTotalDelta
  linarith [deltaJiffies_nonneg pc.user cc.user,
    deltaJiffies_nonneg pc.nice cc.nice,
    deltaJiffies_nonneg pc.system cc.system,
    deltaJiffies_nonneg pc.idle cc.idle,
    deltaJiffies_nonneg pc.iowait cc.iowait,
    deltaJiffies_nonneg pc.irq cc.irq,
    deltaJiffies_nonneg pc.softirq cc.softirq,
    deltaJiffies_nonneg pc.steal cc.steal]

/-- The utilization computed from a pair of `cpu` jiffy snapshots lies in
[0, 100], and is 0 when the total jiffy delta over the window is 0. -/
theorem cpuDeltaPart_util_bounds (jps : ℕ) (hjps : 0 < jps)
    (pc cc : CpuJiffies) :
    0 ≤ (cpuDeltaPart jps pc cc).2.2.2 ∧
    (cpuDeltaPart jps pc cc).2.2.2 ≤ 100 ∧
    (cpuTotalDelta pc cc = 0 → (cpuDeltaPart jps pc cc).2.2.2 = 0) := by
  unfold cpuDeltaPart
  dsimp only
  by_cases hpos : 0 < cpuTotalDelta pc cc
  · rw [if_pos hpos]
    have hjq : (0 : ℚ) < (jps : ℚ) := by exact_mod_cast hjps
    have hcancel :
        ((deltaJiffies pc.idle cc.idle : ℤ) : ℚ) / (jps : ℚ) * (jps : ℚ) =
          ((deltaJiffies pc.idle cc.idle : ℤ) : ℚ) :=
      div_mul_cancel₀ _ (ne_of_gt hjq)
    rw [hcancel]
    have htq : (0 : ℚ) < ((cpuTotalDelta pc cc : ℤ) : ℚ) := by
      exact_mod_cast hpos
    have hdiq : ((deltaJiffies pc.idle cc.idle : ℤ) : ℚ) ≤
        ((cpuTotalDelta pc cc : ℤ) : ℚ) := by
      exact_mod_cast idle_le_cpuTotalDelta pc cc
    have hdi0 : (0 : ℚ) ≤ ((deltaJiffies pc.idle cc.idle : ℤ) : ℚ) := by
      exact_mod_cast deltaJiffies_nonneg pc.idle cc.idle
    refine ⟨?_, ?_, ?_⟩
    · exact mul_nonneg (div_nonneg (by linarith) (le_of_lt htq)) (by norm_num)
    · have hle1 : (((cpuTotalDelta pc cc : ℤ) : ℚ) -
          ((deltaJiffies pc.idle cc.idle : ℤ) : ℚ)) /
            ((cpuTotalDelta pc cc : ℤ) : ℚ) ≤ 1 := by
        rw [div_le_one htq]
        linarith
      have := mul_le_mul_of_nonneg_right hle1 (by norm_num : (0 : ℚ) ≤ 100)
      simpa using this
    · intro h
      rw [h] at hpos
      exact absurd hpos (lt_irrefl 0)
  · rw [if_neg hpos]
    exact ⟨le_refl 0, by norm_num, fun _ => rfl⟩

/-- The idle CPU-seconds delta never exceeds the summed delta. -/
theorem idle_le_osCpuDeltaSum (s0 s1 : OsSnapshot) :
    deltaSeconds s0.cpu_times.idle s1.cpu_times.idle ≤ osCpuDeltaSum s0 s1 := by
  unfold osCpuDeltaSum
  linarith [deltaSeconds_nonneg s0.cpu_times.user s1.cpu_times.user,
    deltaSeconds_nonneg s0.cpu_times.nice s1.cpu_times.nice,
    deltaSeconds_nonneg s0.cpu_times.system s1.cpu_times.system,
    deltaSeconds_nonneg s0.cpu_times.iowait s1.cpu_times.iowait,
    deltaSeconds_nonneg s0.cpu_times.irq s1.cpu_times.irq,
    deltaSeconds_nonneg s0.cpu_times.softirq s1.cpu_times.softirq,
    deltaSeconds_nonneg s0.cpu_times.steal s1.cpu_times.steal]

/-- The summed CPU-seconds delta is nonnegative. -/
theorem osCpuDeltaSum_nonneg (s0 s1 : OsSnapshot) :
    0 ≤ osCpuDeltaSum s0 s1 := by
  unfold osCpuDeltaSum
  linarith [deltaSeconds_nonneg s0.cpu_times.user s1.cpu_times.user,
    deltaSeconds_nonneg s0.cpu_times.nice s1.cpu_times.nice,
    deltaSeconds_nonneg s0.cpu_times.system s1.cpu_times.system,
    deltaSeconds_nonneg s0.cpu_times.idle s1.cpu_times.idle,
    deltaSeconds_nonneg s0.cpu_times.iowait s1.cpu_times.iowait,
    deltaSeconds_nonneg s0.cpu_times.irq s1.cpu_times.irq,
    deltaSeconds_nonneg s0.cpu_times.softirq s1.cpu_times.softirq,
    deltaSeconds_nonneg s0.cpu_times.steal s1.cpu_times.steal]

/-- Projection of the OS-snapshot utilization field. -/
theorem osMetrics_util_eq (s0 s1 : OsSnapshot) (td : ℚ) :
    (computeOsMetricsFromSnapshots s0 s1 td).cpu_utilization =
      100 - (deltaSeconds s0.cpu_times.idle s1.cpu_times.idle /
        (if osCpuDeltaSum s0 s1 ≠ 0 then osCpuDeltaSum s0 s1
         else if td ≠ 0 then td else 1)) * 100 := rfl

/-- C7 amended: both utilization outputs always lie in [0, 100] and no
division by zero occurs; when the total tick delta over the window is 0
the `/proc/stat`-based `sys_cpu_utilization` is 0, but the
OS-snapshot-based `cpu_utilization` is 100 (it is computed as
`100 − idle-share` and the idle share evaluates to 0). -/
theorem utilization_bounds (jps : ℕ) (hjps : 0 < jps)
    (prev curr : ProcStat) (s0 s1 : OsSnapshot) (td : ℚ) :
    (0 ≤ (computeProcStatDeltas jps prev curr).sys_cpu_utilization ∧
      (computeProcStatDeltas jps prev curr).sys_cpu_utilization ≤ 100) ∧
    (∀ pc cc, prev.cpu = some pc → curr.cpu = some cc →
      cpuTotalDelta pc cc = 0 →
      (computeProcStatDeltas jps prev curr).sys_cpu_utilization = 0) ∧
    (0 ≤ (computeOsMetricsFromSnapshots s0 s1 td).cpu_utilization ∧
      (computeOsMetricsFromSnapshots s0 s1 td).cpu_utilization ≤ 100) ∧
    (osCpuDeltaSum s0 s1 = 0 →
      (computeOsMetricsFromSnapshots s0 s1 td).cpu_utilization = 100) := by
  have hos : (0 ≤ (computeOsMetricsFromSnapshots s0 s1 td).cpu_utilization ∧
      (computeOsMetricsFromSnapshots s0 s1 td).cpu_utilization ≤ 100) ∧
      (osCpuDeltaSum s0 s1 = 0 →
        (computeOsMetricsFromSnapshots s0 s1 td).cpu_utilization = 100) := by
    rw [osMetrics_util_eq]
    by_cases hs : osCpuDeltaSum s0 s1 = 0
    · have hdi : deltaSeconds s0.cpu_times.idle s1.cpu_times.idle = 0 :=
        le_antisymm (hs ▸ idle_le_osCpuDeltaSum s0 s1)
          (deltaSeconds_nonneg _ _)
      rw [hdi]
      norm_num
    · rw [if_pos hs]
      have hspos : 0 < osCpuDeltaSum s0 s1 :=
        lt_of_le_of_ne (osCpuDeltaSum_nonneg s0 s1) (Ne.symm hs)
      have hdi0 := deltaSeconds_nonneg s0.cpu_times.idle s1.cpu_times.idle
      have hdiS := idle_le_osCpuDeltaSum s0 s1
      have hfrac0 : 0 ≤ deltaSeconds s0.cpu_times.idle s1.cpu_times.idle /
          osCpuDeltaSum s0 s1 := div_nonneg hdi0 (le_of_lt hspos)
      have hfrac1 : deltaSeconds s0.cpu_times.idle s1.cpu_times.idle /
          osCpuDeltaSum s0 s1 ≤ 1 := by
        rw [div_le_one hspos]
        exact hdiS
      constructor
      · constructor
        · nlinarith
        · nlinarith
      · intro h
        exact absurd h hs
  refine ⟨?_, ?_, hos.1, hos.2⟩
  · rcases hpc : prev.cpu with _ | pc
    · simp [computeProcStatDeltas, hpc]
    · rcases hcc : curr.cpu with _ | cc
      · simp [computeProcStatDeltas, hpc, hcc]
      · have hb := cpuDeltaPart_util_bounds jps hjps pc cc
        simp only [computeProcStatDeltas, hpc, hcc]
        exact ⟨hb.1, hb.2.1⟩
  · intro pc cc hpc hcc htot
    have hb := cpuDeltaPart_util_bounds jps hjps pc cc
    simp only [computeProcStatDeltas, hpc, hcc]
    exact hb.2.2 htot

/-- C7 witness: concrete bounds for advancing snapshots, and the
zero-delta behaviours of both utilization fields at a repeated snapshot. -/
theorem utilization_bounds_witness :
    (0 ≤ (computeProcStatDeltas 100 procPrev procCurr).sys_cpu_utilization ∧
      (computeProcStatDeltas 100 procPrev procCurr).sys_cpu_utilization ≤
        100) ∧
    (computeProcStatDeltas 100 procPrev procPrev).sys_cpu_utilization = 0 ∧
    (computeOsMetricsFromSnapshots snapIdle snapIdle 1).cpu_utilization =
      100 := by
  refine ⟨(utilization_bounds 100 (by norm_num) procPrev procCurr snapIdle
    snapIdle 1).1, ?_, ?_⟩
  · exact (utilization_bounds 100 (by norm_num) procPrev procPrev snapIdle
      snapIdle 1).2.1 ⟨100, 0, 50, 800, 10, 0, 5, 0⟩ ⟨100, 0, 50, 800, 10, 0, 5, 0⟩
      rfl rfl (of_decide_eq_true (by with_unfolding_all rfl))
  · exact (utilization_bounds 100 (by norm_num) procPrev procPrev snapIdle
      snapIdle 1).2.2.2 (of_decide_eq_true (by with_unfolding_all rfl))

/-- C7 counterexample: with two identical OS snapshots (total CPU-seconds
delta 0) the OS-snapshot-based `cpu_utilization` of the emitted feature
point is 100, not 0 as claimed. -/
theorem os_utilization_zero_window_is_100 :
    osCpuDeltaSum snapIdle snapIdle = 0 ∧
    (computeOsMetricsFromSnapshots snapIdle snapIdle 1).cpu_utilization =
      100 ∧
    (computeOsMetricsFromSnapshots snapIdle snapIdle 1).cpu_utilization ≠ 0 :=
  of_decide_eq_true (by with_unfolding_all rfl)

/-- C8: each derived ratio of `calculate_derived_features` is a guarded
division: it is 0 when its divisor (`cpu_cycles`, `cache_references`,
`branches`) is 0, it is the plain quotient otherwise, and it is always a
well-defined nonnegative rational (never infinity or NaN). -/
theorem derived_ratios_guarded (pmc : PmcData) (os : OsMetrics) :
    ((pmc.cpu_cycles = 0 →
        (calculateDerivedFeatures pmc os).instructions_per_cycle = 0) ∧
      (0 < pmc.cpu_cycles →
        (calculateDerivedFeatures pmc os).instructions_per_cycle =
          (pmc.instructions : ℚ) / (pmc.cpu_cycles : ℚ)) ∧
      0 ≤ (calculateDerivedFeatures pmc os).instructions_per_cycle) ∧
    ((pmc.cache_references = 0 →
        (calculateDerivedFeatures pmc os).cache_miss_ratio = 0) ∧
      (0 < pmc.cache_references →
        (calculateDerivedFeatures pmc os).cache_miss_ratio =
          (pmc.cache_misses : ℚ) / (pmc.cache_references : ℚ)) ∧
      0 ≤ (calculateDerivedFeatures pmc os).cache_miss_ratio) ∧
    ((pmc.branches = 0 →
        (calculateDerivedFeatures pmc os).branch_miss_ratio = 0) ∧
      (0 < pmc.branches →
        (calculateDerivedFeatures pmc os).branch_miss_ratio =
          (pmc.branch_misses : ℚ) / (pmc.branches : ℚ)) ∧
      0 ≤ (calculateDerivedFeatures pmc os).branch_miss_ratio) := by
  refine ⟨⟨?_, ?_, ?_⟩, ⟨?_, ?_, ?_⟩, ⟨?_, ?_, ?_⟩⟩
  · intro h; simp [calculateDerivedFeatures, h]
  · intro h; simp [calculateDerivedFeatures, h]
  · simp only [calculateDerivedFeatures]
    split_ifs with h
    · positivity
    · exact le_refl 0
  · intro h; simp [calculateDerivedFeatures, h]
  · intro h; simp [calculateDerivedFeatures, h]
  · simp only [calculateDerivedFeatures]
    split_ifs with h
    · positivity
    · exact le_refl 0
  · intro h; simp [calculateDerivedFeatures, h]
  · intro h; simp [calculateDerivedFeatures, h]
  · simp only [calculateDerivedFeatures]
    split_ifs with h
    · positivity
    · exact le_refl 0

/-- C8 witness: with zero cycles, references and branches all three ratios
are 0; with nonzero divisors the instruction ratio is the quotient 1.5. -/
theorem derived_ratios_guarded_witness :
    (calculateDerivedFeatures pmcZero osBasic).instructions_per_cycle = 0 ∧
    (calculateDerivedFeatures pmcZero osBasic).cache_miss_ratio = 0 ∧
    (calculateDerivedFeatures pmcZero osBasic).branch_miss_ratio = 0 ∧
    (calculateDerivedFeatures pmcBusy osBasic).instructions_per_cycle =
      3/2 := by
  refine ⟨(derived_ratios_guarded pmcZero osBasic).1.1 rfl,
    (derived_ratios_guarded pmcZero osBasic).2.1.1 rfl,
    (derived_ratios_guarded pmcZero osBasic).2.2.1 rfl, ?_⟩
  have h := (derived_ratios_guarded pmcBusy osBasic).1.2.1
    (of_decide_eq_true (by with_unfolding_all rfl))
  rw [h]
  norm_num [pmcBusy]

end VmFeatureCollector
